import Mathlib

/-!
Verification of the Snake game engine in src/app/(tabs)/snake.tsx.

The file holds two near-duplicate implementations of the engine; the
normative one for the data model of the spec (with the pending-growth
counter growthRef) is variant A (lines 1-278).  The definitions below are a
shallow embedding of that engine:

* JS numbers used as integer grid coordinates become Int; the tick interval
  (milliseconds) and the counters become Nat.
* `Math.floor(ms * 0.96)` on an integer ms is embedded as the exact
  `ms * 96 / 100` (Nat division floors), the ideal-real value of the source
  expression.
* `Math.random()`-driven rejection sampling in randomFood is embedded with
  an explicit sample stream `Nat → Int × Int` (reduced into the board by
  `%`, mirroring floor(random * BOARD_COLS) landing in [0, BOARD_COLS)) and
  an explicit fuel bound standing for the unbounded retry loop.
* React state cells (snake, dir, food, score, speed, running) together with
  the mutable refs (growthRef) become one GameState record; `setX` calls
  become functional updates of that record.
* resetGame's synchronous part (setRunning(false)) happens inside the step
  that collides; its 600ms-deferred callback is the separate `resetTimeout`.
-/

/-- Grid cell, source `type Point = { x, y }` (snake.tsx line 4). -/
structure Point where
  x : Int
  y : Int
deriving DecidableEq

instance : Inhabited Point := ⟨⟨0, 0⟩⟩

/-- Source `type Direction` (snake.tsx line 5). -/
inductive Direction where
  | UP
  | DOWN
  | LEFT
  | RIGHT
deriving DecidableEq

/-- snake.tsx line 7. -/
def BOARD_COLS : Int := 20

/-- snake.tsx line 8. -/
def BOARD_ROWS : Int := 26

/-- snake.tsx lines 9-13. -/
def INITIAL_SNAKE : List Point := [⟨5, 10⟩, ⟨4, 10⟩, ⟨3, 10⟩]

/-- snake.tsx line 14. -/
def INITIAL_DIR : Direction := Direction.RIGHT

/-- snake.tsx line 15. -/
def BASE_SPEED_MS : Nat := 140

/-- Source function moveHead (snake.tsx lines 196-204). -/
def moveHead (head : Point) (dir : Direction) : Point :=
  match dir with
  | Direction.UP => ⟨head.x, head.y - 1⟩
  | Direction.DOWN => ⟨head.x, head.y + 1⟩
  | Direction.LEFT => ⟨head.x - 1, head.y⟩
  | Direction.RIGHT => ⟨head.x + 1, head.y⟩

/-- Source function randomFood (snake.tsx lines 206-212): rejection-sample a
cell from the raw stream `sample`, coordinates reduced into the board by `%`
(as floor(random * COLS) lies in [0, COLS)); the first sample not in
`occupied` is returned.  `i` is the index into the stream, `fuel` bounds the
retries; `none` stands for the (probability-zero) non-terminating loop. -/
def randomFood (sample : Nat → Int × Int) (occupied : List Point) :
    Nat → Nat → Option Point
  | _, 0 => none
  | i, fuel + 1 =>
    if occupied.any
        (fun p => p.x == (sample i).1 % BOARD_COLS
          && p.y == (sample i).2 % BOARD_ROWS) then
      randomFood sample occupied (i + 1) fuel
    else
      some ⟨(sample i).1 % BOARD_COLS, (sample i).2 % BOARD_ROWS⟩

/-- The engine state of variant A: the React state cells snake/dir/food/
score/speed/running (snake.tsx lines 24-29) plus the mutable growthRef
(line 35).  The refs dirRef/runningRef/snakeRef/foodRef mirror the state
cells and need no separate fields. -/
structure GameState where
  snake : List Point
  dir : Direction
  food : Point
  score : Nat
  speed : Nat
  running : Bool
  growth : Nat
deriving DecidableEq

/-- The initial engine state, as set on mount (snake.tsx lines 24-29,
growthRef 0) and restored by resetGame's deferred callback (lines 45-53);
`food` is the cell randomFood happened to pick. -/
def initState (food : Point) : GameState :=
  { snake := INITIAL_SNAKE
    dir := INITIAL_DIR
    food := food
    score := 0
    speed := BASE_SPEED_MS
    running := true
    growth := 0 }

/-- The body of resetGame's 600ms setTimeout (snake.tsx lines 44-54):
restore the initial snake, direction, speed, score and growth counter,
place food at the cell `f` picked by randomFood, set running true. -/
def resetTimeout (f : Point) (_s : GameState) : GameState :=
  initState f

/-- step's `nextHead` (snake.tsx line 60): the current head moved one cell
in the committed direction.  (`headI` defaults on the empty list; the
engine never reaches an empty snake.) -/
def nextHeadOf (s : GameState) : Point :=
  moveHead s.snake.headI s.dir

/-- step's `ateFood` (snake.tsx line 62). -/
def ateFoodOf (s : GameState) : Bool :=
  (nextHeadOf s).x == s.food.x && (nextHeadOf s).y == s.food.y

/-- step's `willMoveTail` (snake.tsx line 63). -/
def willMoveTailOf (s : GameState) : Bool :=
  !ateFoodOf s && s.growth == 0

/-- The wall-collision test of step (snake.tsx lines 65-70). -/
def offBoard (p : Point) : Bool :=
  decide (p.x < 0) || decide (p.x ≥ BOARD_COLS)
    || decide (p.y < 0) || decide (p.y ≥ BOARD_ROWS)

/-- step's `bodyToCheck` (snake.tsx line 75): `prev.slice(0, -1)` is
`dropLast`. -/
def bodyToCheckOf (s : GameState) : List Point :=
  if willMoveTailOf s then s.snake.dropLast else s.snake

/-- step's `hitsSelf` (snake.tsx line 76). -/
def hitsSelfOf (s : GameState) : Bool :=
  (bodyToCheckOf s).any
    (fun p => p.x == (nextHeadOf s).x && p.y == (nextHeadOf s).y)

/-- Whether the current step takes one of its two resetGame branches
(snake.tsx lines 65-80): wall collision or self collision. -/
def stepResets (s : GameState) : Bool :=
  offBoard (nextHeadOf s) || hitsSelfOf s

/-- The step function of variant A (snake.tsx lines 57-103).  The two
resetGame branches return INITIAL_SNAKE and synchronously set running
false (resetGame line 43); the rest of resetGame is deferred, see
`resetTimeout`.  Otherwise `newSnake = [nextHead, ...prev]` (line 82); on
eating, growthRef is bumped, score incremented, food re-placed on the new
snake (`placeFood` stands for the value randomFood returns) and speed
re-scaled (lines 84-93); finally a positive growth counter is consumed
instead of popping the tail (lines 95-99). -/
def stepA (placeFood : List Point → Point) (s : GameState) : GameState :=
  if offBoard (nextHeadOf s) then
    { s with snake := INITIAL_SNAKE, running := false }
  else if hitsSelfOf s then
    { s with snake := INITIAL_SNAKE, running := false }
  else
    let newSnake := nextHeadOf s :: s.snake
    let growth1 := if ateFoodOf s then s.growth + 1 else s.growth
    { s with
      snake := if 0 < growth1 then newSnake else newSnake.dropLast
      growth := if 0 < growth1 then growth1 - 1 else growth1
      score := if ateFoodOf s then s.score + 1 else s.score
      food := if ateFoodOf s then placeFood newSnake else s.food
      speed := if ateFoodOf s then max 70 (s.speed * 96 / 100) else s.speed }

/-- The step function of variant B (snake.tsx lines 330-365), recorded for
comparison: no growth counter, and the self-collision test always runs
against the full current snake (line 346), even when the tail is about to
move away. -/
def stepB (placeFood : List Point → Point) (s : GameState) : GameState :=
  if offBoard (nextHeadOf s) then
    { s with snake := INITIAL_SNAKE, running := false }
  else if s.snake.any
      (fun p => p.x == (nextHeadOf s).x && p.y == (nextHeadOf s).y) then
    { s with snake := INITIAL_SNAKE, running := false }
  else if ateFoodOf s then
    { s with
      snake := nextHeadOf s :: s.snake
      score := s.score + 1
      food := placeFood (nextHeadOf s :: s.snake)
      speed := max 70 (s.speed * 96 / 100) }
  else
    { s with snake := (nextHeadOf s :: s.snake).dropLast }

/-- Source function changeDir (snake.tsx lines 114-124): the setDir updater
applied to the current committed direction `curr` and the requested
direction `next`. -/
def changeDir (next curr : Direction) : Direction :=
  if (curr == Direction.UP && next == Direction.DOWN)
      || (curr == Direction.DOWN && next == Direction.UP)
      || (curr == Direction.LEFT && next == Direction.RIGHT)
      || (curr == Direction.RIGHT && next == Direction.LEFT) then
    curr
  else
    next

/-- A direction-change request applied to the engine state: only the dir
cell is written (snake.tsx lines 114-124; note the updater is not gated by
the running flag). -/
def applyChangeDir (next : Direction) (s : GameState) : GameState :=
  { s with dir := changeDir next s.dir }

/-- A burst of direction-change requests between two ticks, applied in
arrival order; each setDir updater reads the value left by the previous
one. -/
def applyRequests (curr : Direction) (reqs : List Direction) : Direction :=
  reqs.foldl (fun c n => changeDir n c) curr

/-- The reverse of each direction (the pairs rejected by changeDir). -/
def oppositeDir : Direction → Direction
  | Direction.UP => Direction.DOWN
  | Direction.DOWN => Direction.UP
  | Direction.LEFT => Direction.RIGHT
  | Direction.RIGHT => Direction.LEFT

/-- One firing of the game-loop interval (snake.tsx lines 106-112): the
tick is dropped while runningRef is false, otherwise it runs step. -/
def tick (placeFood : List Point → Point) (s : GameState) : GameState :=
  if s.running then stepA placeFood s else s

/-- A cell lies within the 20 × 26 board. -/
def cellOK (p : Point) : Prop :=
  0 ≤ p.x ∧ p.x < BOARD_COLS ∧ 0 ≤ p.y ∧ p.y < BOARD_ROWS

instance (p : Point) : Decidable (cellOK p) :=
  inferInstanceAs
    (Decidable (0 ≤ p.x ∧ p.x < BOARD_COLS ∧ 0 ≤ p.y ∧ p.y < BOARD_ROWS))

/-- Engine states reachable from the initial state (with any food cell) by
step calls and direction-change requests; `timeout` is the deferred tail of
resetGame. -/
inductive Reach : GameState → Prop
  | init (f : Point) : Reach (initState f)
  | step (placeFood : List Point → Point) {s : GameState} :
      Reach s → Reach (stepA placeFood s)
  | dirChange (next : Direction) {s : GameState} :
      Reach s → Reach (applyChangeDir next s)
  | timeout (f : Point) {s : GameState} :
      Reach s → Reach (resetTimeout f s)

/-- The inductive invariant of the engine: snake cells on the board and
pairwise distinct, growth counter zero at tick boundaries, speed in
[70, 140]. -/
def EngineInv (s : GameState) : Prop :=
  (∀ p ∈ s.snake, cellOK p) ∧ s.snake.Nodup ∧ s.growth = 0
    ∧ 70 ≤ s.speed ∧ s.speed ≤ 140

/-- Concrete states and streams used by the closed evaluation theorems
below. -/
def constFood : List Point → Point := fun _ => ⟨0, 0⟩

def sampleW : Nat → Int × Int := fun i => (i, 0)

/-- The eating scenario of the spec: initial snake, direction RIGHT, food
directly ahead at (6,10). -/
def eatState : GameState := initState ⟨6, 10⟩

/-- Head at (19,10) moving RIGHT: the next step hits the right wall. -/
def wallState : GameState :=
  { snake := [⟨19, 10⟩, ⟨18, 10⟩, ⟨17, 10⟩]
    dir := Direction.RIGHT
    food := ⟨0, 0⟩
    score := 0
    speed := 140
    running := true
    growth := 0 }

/-- A state whose next head runs into the snake's own body. -/
def selfHitState : GameState :=
  { snake := [⟨5, 10⟩, ⟨5, 11⟩, ⟨4, 11⟩, ⟨4, 10⟩]
    dir := Direction.DOWN
    food := ⟨0, 0⟩
    score := 0
    speed := 140
    running := true
    growth := 0 }

/-- The spec's eating scenario state, written out. -/
def scenarioState : GameState :=
  { snake := [⟨5, 10⟩, ⟨4, 10⟩, ⟨3, 10⟩]
    dir := Direction.RIGHT
    food := ⟨6, 10⟩
    score := 0
    speed := 140
    running := true
    growth := 0 }

/-- The engine mid-death-pause: initial fields but running false. -/
def pausedState : GameState := { initState ⟨0, 0⟩ with running := false }

/-! ## Helper lemmas -/

/-- Point equality componentwise. -/
theorem point_eq_iff (p q : Point) : p = q ↔ p.x = q.x ∧ p.y = q.y := by
  cases p
  cases q
  simp

/-- The componentwise boolean test used by the source's `.some(...)`
predicates decides equality with the next head. -/
theorem hitsSelfOf_iff (s : GameState) :
    hitsSelfOf s = true ↔ nextHeadOf s ∈ bodyToCheckOf s := by
  simp only [hitsSelfOf, List.any_eq_true, Bool.and_eq_true, beq_iff_eq]
  constructor
  · rintro ⟨p, hp, hx, hy⟩
    have : p = nextHeadOf s := (point_eq_iff p (nextHeadOf s)).mpr ⟨hx, hy⟩
    exact this ▸ hp
  · intro hp
    exact ⟨nextHeadOf s, hp, rfl, rfl⟩

/-- Splitting a non-resetting step into its two branch conditions. -/
theorem stepResets_eq_false {s : GameState} (h : stepResets s = false) :
    offBoard (nextHeadOf s) = false ∧ hitsSelfOf s = false := by
  have h' := h
  simp only [stepResets, Bool.or_eq_false_iff] at h'
  exact h'

/-- A head that passes the wall check is on the board. -/
theorem cellOK_of_offBoard_eq_false {p : Point} (h : offBoard p = false) :
    cellOK p := by
  simp only [offBoard, Bool.or_eq_false_iff, decide_eq_false_iff_not,
    not_lt, not_le, ge_iff_le] at h
  exact ⟨h.1.1.1, h.1.1.2, h.1.2, h.2⟩

/-- A false self-collision test means the next head misses the checked
body. -/
theorem not_mem_of_hitsSelf_eq_false {s : GameState}
    (h : hitsSelfOf s = false) : nextHeadOf s ∉ bodyToCheckOf s := by
  intro hm
  have h2 := (hitsSelfOf_iff s).mpr hm
  rw [h] at h2
  exact Bool.false_ne_true h2

/-- bodyToCheck on an eating step is the full snake. -/
theorem bodyToCheckOf_of_ate {s : GameState} (ha : ateFoodOf s = true) :
    bodyToCheckOf s = s.snake := by
  simp [bodyToCheckOf, willMoveTailOf, ha]

/-- bodyToCheck on a non-eating step with no pending growth drops the
tail cell. -/
theorem bodyToCheckOf_of_miss {s : GameState} (ha : ateFoodOf s = false)
    (hg : s.growth = 0) : bodyToCheckOf s = s.snake.dropLast := by
  simp [bodyToCheckOf, willMoveTailOf, ha, hg]

/-- A step that collides only swaps in the initial snake and clears the
running flag. -/
theorem stepA_of_reset (f : List Point → Point) (s : GameState)
    (h : stepResets s = true) :
    stepA f s = { s with snake := INITIAL_SNAKE, running := false } := by
  have h' := h
  simp only [stepResets, Bool.or_eq_true] at h'
  rcases h' with h1 | h1
  · simp [stepA, h1]
  · by_cases h2 : offBoard (nextHeadOf s) = true
    · simp [stepA, h2]
    · simp only [Bool.not_eq_true] at h2
      simp [stepA, h1, h2]

/-- Field values after a non-colliding eating step. -/
theorem stepA_ate_fields (f : List Point → Point) (s : GameState)
    (hw : offBoard (nextHeadOf s) = false) (hs : hitsSelfOf s = false)
    (ha : ateFoodOf s = true) :
    (stepA f s).snake = nextHeadOf s :: s.snake
    ∧ (stepA f s).growth = s.growth
    ∧ (stepA f s).score = s.score + 1
    ∧ (stepA f s).food = f (nextHeadOf s :: s.snake)
    ∧ (stepA f s).speed = max 70 (s.speed * 96 / 100)
    ∧ (stepA f s).running = s.running := by
  refine ⟨?_, ?_, ?_, ?_, ?_, ?_⟩ <;>
    simp [stepA, hw, hs, ha, Nat.succ_pos]

/-- Field values after a non-colliding non-eating step with no pending
growth. -/
theorem stepA_miss_fields (f : List Point → Point) (s : GameState)
    (hw : offBoard (nextHeadOf s) = false) (hs : hitsSelfOf s = false)
    (ha : ateFoodOf s = false) (hg : s.growth = 0) :
    (stepA f s).snake = (nextHeadOf s :: s.snake).dropLast
    ∧ (stepA f s).growth = 0
    ∧ (stepA f s).score = s.score
    ∧ (stepA f s).food = s.food
    ∧ (stepA f s).speed = s.speed
    ∧ (stepA f s).running = s.running := by
  refine ⟨?_, ?_, ?_, ?_, ?_, ?_⟩ <;>
    simp [stepA, hw, hs, ha, hg]

/-- Accepted requests overwrite the committed direction. -/
theorem changeDir_of_ne {curr next : Direction}
    (h : next ≠ oppositeDir curr) : changeDir next curr = next := by
  cases curr <;> cases next <;> first | rfl | exact absurd rfl h

/-- The invariant holds in every initial state. -/
theorem engineInv_initState (f : Point) : EngineInv (initState f) := by
  exact ⟨(by decide : ∀ p ∈ INITIAL_SNAKE, cellOK p),
    (by decide : INITIAL_SNAKE.Nodup), rfl,
    (by decide : (70 : Nat) ≤ 140), (by decide : (140 : Nat) ≤ 140)⟩

/-- The invariant is preserved by one step, for any food placement. -/
theorem engineInv_stepA (f : List Point → Point) {s : GameState}
    (h : EngineInv s) : EngineInv (stepA f s) := by
  obtain ⟨hcell, hnodup, hg, hlo, hhi⟩ := h
  by_cases hr : stepResets s = true
  · rw [stepA_of_reset f s hr]
    exact ⟨(by decide : ∀ p ∈ INITIAL_SNAKE, cellOK p),
      (by decide : INITIAL_SNAKE.Nodup), hg, hlo, hhi⟩
  · simp only [Bool.not_eq_true] at hr
    obtain ⟨hw, hs'⟩ := stepResets_eq_false hr
    have hnh : cellOK (nextHeadOf s) := cellOK_of_offBoard_eq_false hw
    have hmem := not_mem_of_hitsSelf_eq_false hs'
    have hdiv : s.speed * 96 / 100 ≤ s.speed := by
      calc s.speed * 96 / 100 ≤ s.speed * 100 / 100 :=
            Nat.div_le_div_right (Nat.mul_le_mul_left s.speed (by norm_num))
        _ = s.speed := Nat.mul_div_cancel s.speed (by norm_num)
    cases ha : ateFoodOf s
    · obtain ⟨e1, e2, e3, e4, e5, e6⟩ := stepA_miss_fields f s hw hs' ha hg
      rw [bodyToCheckOf_of_miss ha hg] at hmem
      refine ⟨?_, ?_, e2, ?_, ?_⟩
      · rw [e1]
        intro p hp
        rcases List.mem_cons.mp ((List.dropLast_sublist _).subset hp)
          with rfl | hp'
        · exact hnh
        · exact hcell p hp'
      · rw [e1]
        rcases List.eq_nil_or_concat s.snake with h0 | ⟨ys, y, hy⟩
        · simp [h0]
        · rw [List.concat_eq_append] at hy
          rw [hy, ← List.cons_append, List.dropLast_concat]
          rw [hy, List.dropLast_concat] at hmem
          refine List.nodup_cons.mpr ⟨hmem, ?_⟩
          rw [hy] at hnodup
          exact hnodup.sublist (List.sublist_append_left ys [y])
      · rw [e5]; exact hlo
      · rw [e5]; exact hhi
    · obtain ⟨e1, e2, e3, e4, e5, e6⟩ := stepA_ate_fields f s hw hs' ha
      rw [bodyToCheckOf_of_ate ha] at hmem
      refine ⟨?_, ?_, ?_, ?_, ?_⟩
      · rw [e1]
        intro p hp
        rcases List.mem_cons.mp hp with rfl | hp'
        · exact hnh
        · exact hcell p hp'
      · rw [e1]
        exact List.nodup_cons.mpr ⟨hmem, hnodup⟩
      · rw [e2]; exact hg
      · rw [e5]; exact le_max_left _ _
      · rw [e5]; exact max_le (by norm_num) (le_trans hdiv hhi)

/-- The invariant is preserved by direction changes. -/
theorem engineInv_applyChangeDir (d : Direction) {s : GameState}
    (h : EngineInv s) : EngineInv (applyChangeDir d s) := h

/-- Every reachable state satisfies the invariant. -/
theorem reach_engineInv {s : GameState} (h : Reach s) : EngineInv s := by
  induction h with
  | init f => exact engineInv_initState f
  | step pf h ih => exact engineInv_stepA pf ih
  | dirChange d h ih => exact engineInv_applyChangeDir d ih
  | timeout f h ih => exact engineInv_initState f

/-- randomFood only returns on-board cells outside the occupied list. -/
theorem randomFood_sound {sample : Nat → Int × Int} {occupied : List Point}
    {c : Point} :
    ∀ {fuel i : Nat}, randomFood sample occupied i fuel = some c →
      cellOK c ∧ c ∉ occupied := by
  intro fuel
  induction fuel with
  | zero =>
    intro i h
    simp [randomFood] at h
  | succ n ih =>
    intro i h
    rw [randomFood] at h
    split at h
    · exact ih h
    · rename_i hcond
      obtain rfl :
          (⟨(sample i).1 % BOARD_COLS, (sample i).2 % BOARD_ROWS⟩ : Point)
            = c := Option.some.inj h
      refine ⟨⟨Int.emod_nonneg _ (by decide), Int.emod_lt_of_pos _ (by decide),
        Int.emod_nonneg _ (by decide), Int.emod_lt_of_pos _ (by decide)⟩, ?_⟩
      intro hmem
      exact hcond (List.any_eq_true.mpr ⟨_, hmem, by simp⟩)

/-! ## Claim theorems -/

/-- Claim C1: for every state reachable from the initial state by any
sequence of step and direction-change calls, every cell of the snake lies
within the board bounds (0 ≤ x < 20, 0 ≤ y < 26) and no two cells of the
snake coincide. -/
theorem reach_snake_in_bounds_nodup {s : GameState} (h : Reach s) :
    (∀ p ∈ s.snake, cellOK p) ∧ s.snake.Nodup :=
  ⟨(reach_engineInv h).1, (reach_engineInv h).2.1⟩

theorem reach_snake_in_bounds_nodup_witness :
    (∀ p ∈ (stepA constFood (initState ⟨0, 0⟩)).snake, cellOK p)
    ∧ (stepA constFood (initState ⟨0, 0⟩)).snake.Nodup :=
  reach_snake_in_bounds_nodup (Reach.step constFood (Reach.init ⟨0, 0⟩))

/-- Claim C2: in step, the body tested for self-collision is the current
snake minus its last cell exactly when ateFood is false and the pending
growth counter is 0, and the full current snake otherwise; if nextHead
matches any cell of that body, reset is triggered and the step terminates
without moving the snake (its immediate result is the initial snake with
running cleared, the rest of the state untouched). -/
theorem stepA_bodyToCheck_spec (f : List Point → Point) (s : GameState) :
    bodyToCheckOf s =
      (if ateFoodOf s = false ∧ s.growth = 0 then s.snake.dropLast
       else s.snake)
    ∧ (hitsSelfOf s = true ↔ nextHeadOf s ∈ bodyToCheckOf s)
    ∧ (nextHeadOf s ∈ bodyToCheckOf s →
        stepA f s = { s with snake := INITIAL_SNAKE, running := false }) := by
  refine ⟨?_, hitsSelfOf_iff s, fun hm => ?_⟩
  · cases ha : ateFoodOf s <;> by_cases hg : s.growth = 0 <;>
      simp [bodyToCheckOf, willMoveTailOf, ha, hg]
  · refine stepA_of_reset f s ?_
    have h2 := (hitsSelfOf_iff s).mpr hm
    simp [stepResets, h2]

theorem stepA_bodyToCheck_spec_witness :
    stepA constFood selfHitState
      = { selfHitState with snake := INITIAL_SNAKE, running := false } :=
  (stepA_bodyToCheck_spec constFood selfHitState).2.2 (by decide)

/-- Claim C3: on every step that does not trigger reset, the snake's
length increases by exactly 1 when the new head is on the food cell and is
unchanged otherwise. -/
theorem stepA_length_spec (f : List Point → Point) {s : GameState}
    (hr : Reach s) (hnr : stepResets s = false) :
    (stepA f s).snake.length =
      if ateFoodOf s = true then s.snake.length + 1 else s.snake.length := by
  obtain ⟨hw, hs'⟩ := stepResets_eq_false hnr
  have hg := (reach_engineInv hr).2.2.1
  cases ha : ateFoodOf s
  · rw [(stepA_miss_fields f s hw hs' ha hg).1]
    simp [ha, List.length_dropLast]
  · rw [(stepA_ate_fields f s hw hs' ha).1]
    simp [ha]

theorem stepA_length_spec_witness :
    (stepA constFood (initState ⟨0, 0⟩)).snake.length =
      if ateFoodOf (initState ⟨0, 0⟩) = true
      then (initState ⟨0, 0⟩).snake.length + 1
      else (initState ⟨0, 0⟩).snake.length :=
  stepA_length_spec constFood (Reach.init ⟨0, 0⟩) (by decide)

/-- Claim C4: step triggers reset exactly when nextHead is off the board
or matches the self-collision body; such a step immediately yields the
fixed initial snake with running false and changes nothing else
synchronously, while the deferred 600ms callback restores the full initial
state with running true; a non-resetting step leaves running untouched. -/
theorem stepA_reset_spec (f : List Point → Point) (s : GameState)
    (g : Point) :
    (stepResets s = true ↔
      (offBoard (nextHeadOf s) = true ∨ nextHeadOf s ∈ bodyToCheckOf s))
    ∧ (stepResets s = true →
        stepA f s = { s with snake := INITIAL_SNAKE, running := false })
    ∧ (stepResets s = false → (stepA f s).running = s.running)
    ∧ resetTimeout g s =
        { snake := INITIAL_SNAKE, dir := INITIAL_DIR, food := g, score := 0,
          speed := BASE_SPEED_MS, running := true, growth := 0 } := by
  refine ⟨?_, stepA_of_reset f s, fun hnr => ?_, rfl⟩
  · simp [stepResets, Bool.or_eq_true, hitsSelfOf_iff]
  · obtain ⟨hw, hs'⟩ := stepResets_eq_false hnr
    simp [stepA, hw, hs']

theorem stepA_reset_spec_witness :
    stepA constFood wallState
      = { wallState with snake := INITIAL_SNAKE, running := false } :=
  (stepA_reset_spec constFood wallState ⟨0, 0⟩).2.1 (by decide)

/-- Claim C5: a direction-change request updates the pending direction
unless it is the exact opposite of the currently committed direction, the
one the next step will use; only such reversals are rejected, and of a
burst of requests between two steps only the latest valid one remains
committed. -/
theorem changeDir_spec (curr next : Direction) (reqs : List Direction) :
    (next ≠ oppositeDir curr → changeDir next curr = next)
    ∧ changeDir (oppositeDir curr) curr = curr
    ∧ (next ≠ oppositeDir (applyRequests curr reqs) →
        applyRequests curr (reqs ++ [next]) = next) := by
  refine ⟨fun h => changeDir_of_ne h, ?_, fun h => ?_⟩
  · cases curr <;> rfl
  · have h2 : applyRequests curr (reqs ++ [next])
        = changeDir next (applyRequests curr reqs) := by
      simp [applyRequests, List.foldl_append]
    rw [h2]
    exact changeDir_of_ne h

theorem changeDir_spec_witness :
    changeDir Direction.UP Direction.RIGHT = Direction.UP
    ∧ applyRequests Direction.RIGHT [Direction.UP, Direction.LEFT]
        = Direction.LEFT :=
  ⟨(changeDir_spec Direction.RIGHT Direction.UP []).1 (by decide),
   (changeDir_spec Direction.RIGHT Direction.LEFT [Direction.UP]).2.2
     (by decide)⟩

/-- Claim C6: on a non-resetting step that eats food the score rises by
exactly 1 and the new speed is max 70 (floor of speed times 0.96, embedded
as speed * 96 / 100); on a non-eating step score and speed are unchanged;
in either case the speed never increases and never drops below 70. -/
theorem stepA_score_speed_spec (f : List Point → Point) {s : GameState}
    (hr : Reach s) (hnr : stepResets s = false) :
    ((ateFoodOf s = true →
        (stepA f s).score = s.score + 1
        ∧ (stepA f s).speed = max 70 (s.speed * 96 / 100))
     ∧ (ateFoodOf s = false →
        (stepA f s).score = s.score ∧ (stepA f s).speed = s.speed))
    ∧ (stepA f s).speed ≤ s.speed ∧ 70 ≤ (stepA f s).speed := by
  obtain ⟨hw, hs'⟩ := stepResets_eq_false hnr
  obtain ⟨-, -, hg, hlo, hhi⟩ := reach_engineInv hr
  have hdiv : s.speed * 96 / 100 ≤ s.speed := by
    calc s.speed * 96 / 100 ≤ s.speed * 100 / 100 :=
          Nat.div_le_div_right (Nat.mul_le_mul_left s.speed (by norm_num))
      _ = s.speed := Nat.mul_div_cancel s.speed (by norm_num)
  cases ha : ateFoodOf s
  · obtain ⟨-, -, e3, -, e5, -⟩ := stepA_miss_fields f s hw hs' ha hg
    refine ⟨⟨fun hc => absurd hc (by simp [ha]), fun _ => ⟨e3, e5⟩⟩, ?_, ?_⟩
    · rw [e5]
    · rw [e5]; exact hlo
  · obtain ⟨-, -, e3, -, e5, -⟩ := stepA_ate_fields f s hw hs' ha
    refine ⟨⟨fun _ => ⟨e3, e5⟩, fun hc => absurd hc (by simp)⟩, ?_, ?_⟩
    · rw [e5]; exact max_le hlo hdiv
    · rw [e5]; exact le_max_left _ _

theorem stepA_score_speed_spec_witness :
    ((ateFoodOf eatState = true →
        (stepA constFood eatState).score = eatState.score + 1
        ∧ (stepA constFood eatState).speed
            = max 70 (eatState.speed * 96 / 100))
     ∧ (ateFoodOf eatState = false →
        (stepA constFood eatState).score = eatState.score
        ∧ (stepA constFood eatState).speed = eatState.speed))
    ∧ (stepA constFood eatState).speed ≤ eatState.speed
    ∧ 70 ≤ (stepA constFood eatState).speed :=
  stepA_score_speed_spec constFood (Reach.init ⟨6, 10⟩) (by decide)

/-- Claim C7: from snake [(5,10),(4,10),(3,10)], committed direction
RIGHT, food at (6,10), score 0 and speed 140, a single step eats the food
and immediately yields snake [(6,10),(5,10),(4,10),(3,10)], score 1 and
speed 134, whatever cell the new food lands on. -/
theorem stepA_eats_scenario (f : List Point → Point) :
    (stepA f scenarioState).snake = [⟨6, 10⟩, ⟨5, 10⟩, ⟨4, 10⟩, ⟨3, 10⟩]
    ∧ (stepA f scenarioState).score = 1
    ∧ (stepA f scenarioState).speed = 134 := by
  obtain ⟨e1, -, e3, -, e5, -⟩ :=
    stepA_ate_fields f scenarioState (by decide) (by decide) (by decide)
  refine ⟨?_, ?_, ?_⟩
  · rw [e1]; decide
  · rw [e3]; decide
  · rw [e5]; decide

/-- Claim C8, counterexample: the claim says that during the death pause
no mutation of the engine state other than tick no-ops occurs, direction
included; but changeDir is not gated by the running flag, so a
direction-change request arriving mid-pause does change the committed
direction before reinitialization. -/
theorem paused_changeDir_mutates_direction :
    pausedState.running = false
    ∧ (applyChangeDir Direction.UP pausedState).dir ≠ pausedState.dir := by
  decide

/-- Claim C8, amended: during the pause running is false and every
arriving tick is a no-op (no state mutated, no pending growth consumed);
direction-change requests, which are not gated by running, can still
rewrite the committed direction, but they touch no field other than dir. -/
theorem paused_tick_noop (f : List Point → Point) (d : Direction)
    {s : GameState} (h : s.running = false) :
    tick f s = s
    ∧ (applyChangeDir d s).snake = s.snake
    ∧ (applyChangeDir d s).food = s.food
    ∧ (applyChangeDir d s).score = s.score
    ∧ (applyChangeDir d s).speed = s.speed
    ∧ (applyChangeDir d s).growth = s.growth
    ∧ (applyChangeDir d s).running = false := by
  refine ⟨?_, rfl, rfl, rfl, rfl, rfl, h⟩
  simp [tick, h]

theorem paused_tick_noop_witness :
    tick constFood pausedState = pausedState
    ∧ (applyChangeDir Direction.UP pausedState).snake = pausedState.snake
    ∧ (applyChangeDir Direction.UP pausedState).food = pausedState.food
    ∧ (applyChangeDir Direction.UP pausedState).score = pausedState.score
    ∧ (applyChangeDir Direction.UP pausedState).speed = pausedState.speed
    ∧ (applyChangeDir Direction.UP pausedState).growth = pausedState.growth
    ∧ (applyChangeDir Direction.UP pausedState).running = false :=
  paused_tick_noop constFood Direction.UP rfl

/-- Claim C9: whenever randomFood returns, the returned cell lies within
the board bounds and outside the occupied list it was given; consequently
a food cell placed on an eating step (the source passes the post-move
snake as the occupied list) never coincides with any snake cell at the
moment it is placed. -/
theorem randomFood_spec (sample : Nat → Int × Int) (occupied : List Point)
    (i fuel : Nat) (c : Point) :
    (randomFood sample occupied i fuel = some c → cellOK c ∧ c ∉ occupied)
    ∧ (∀ s : GameState, stepResets s = false → ateFoodOf s = true →
        randomFood sample (nextHeadOf s :: s.snake) i fuel = some c →
        (stepA (fun _ => c) s).food = c
        ∧ (stepA (fun _ => c) s).food ∉ (stepA (fun _ => c) s).snake) := by
  refine ⟨fun h => randomFood_sound h, fun s hnr ha h => ?_⟩
  obtain ⟨hw, hs'⟩ := stepResets_eq_false hnr
  obtain ⟨e1, -, -, e4, -, -⟩ := stepA_ate_fields (fun _ => c) s hw hs' ha
  have hc := randomFood_sound h
  refine ⟨e4, ?_⟩
  rw [e4, e1]
  exact hc.2

theorem randomFood_spec_witness :
    (cellOK ⟨0, 0⟩ ∧ (⟨0, 0⟩ : Point) ∉ INITIAL_SNAKE)
    ∧ ((stepA (fun _ => (⟨0, 0⟩ : Point)) eatState).food = ⟨0, 0⟩
       ∧ (stepA (fun _ => (⟨0, 0⟩ : Point)) eatState).food
           ∉ (stepA (fun _ => (⟨0, 0⟩ : Point)) eatState).snake) :=
  ⟨(randomFood_spec sampleW INITIAL_SNAKE 0 1 ⟨0, 0⟩).1 (by decide),
   (randomFood_spec sampleW INITIAL_SNAKE 0 1 ⟨0, 0⟩).2 eatState
     (by decide) (by decide) (by decide)⟩

/-- Claim C10: in the pendingGrowth variant the growth counter is 0 at the
start and at the end of every step from a reachable state: eating bumps it
to 1 and the same tick's tail adjustment consumes it, so growth
materializes on the eating tick itself (the snake after an eating step is
nextHead consed onto the whole previous snake) and tail removal is never
deferred; at the self-collision check the counter is still 0, so the
tail-including body is reachable only through ateFood. -/
theorem growth_zero_invariant (f : List Point → Point) {s : GameState}
    (hr : Reach s) :
    s.growth = 0
    ∧ (stepA f s).growth = 0
    ∧ (ateFoodOf s = false → bodyToCheckOf s = s.snake.dropLast)
    ∧ (ateFoodOf s = true → stepResets s = false →
        (stepA f s).snake = nextHeadOf s :: s.snake) := by
  have hg := (reach_engineInv hr).2.2.1
  refine ⟨hg, ?_, fun ha => bodyToCheckOf_of_miss ha hg, fun ha hnr => ?_⟩
  · exact (reach_engineInv (Reach.step f hr)).2.2.1
  · obtain ⟨hw, hs'⟩ := stepResets_eq_false hnr
    exact (stepA_ate_fields f s hw hs' ha).1

theorem growth_zero_invariant_witness :
    (initState ⟨0, 0⟩).growth = 0
    ∧ (stepA constFood (initState ⟨0, 0⟩)).growth = 0
    ∧ bodyToCheckOf (initState ⟨0, 0⟩) = (initState ⟨0, 0⟩).snake.dropLast
    ∧ (stepA constFood eatState).snake
        = nextHeadOf eatState :: eatState.snake :=
  ⟨(growth_zero_invariant constFood (Reach.init ⟨0, 0⟩)).1,
   (growth_zero_invariant constFood (Reach.init ⟨0, 0⟩)).2.1,
   (growth_zero_invariant constFood (Reach.init ⟨0, 0⟩)).2.2.1 (by decide),
   (growth_zero_invariant constFood (Reach.init ⟨6, 10⟩)).2.2.2
     (by decide) (by decide)⟩
